import Mathlib

/-!
Shallow embedding of the rollout-status evaluators and polymorphic helpers of
kruise-tools (pkg/internal/polymorphichelpers/rollout_status.go and helpers.go).

Counts and generations are modelled as `Int` (they are int32/int64 in the
source; only order and subtraction matter, no overflow is reachable here).
Strategy types are the string constants of the Kubernetes / Kruise APIs.
A decode failure of the unstructured input is modelled by a `none` object;
the nil-pointer dereference reachable in the Advanced StatefulSet viewer is
modelled by an `Option ProgressResult` result, `none` standing for the panic.
-/

/-- Errors produced by the status viewers, one constructor per `fmt.Errorf`
site of rollout_status.go. -/
inductive StatusError where
  | convertFailed
  | revisionGet (name : String)
  | revisionMismatch (desired running : Int)
  | deadlineExceeded (name : String)
  | unsupportedStrategy
  deriving DecidableEq, Repr

/-- The (message, done, err) triple returned by every Status method. -/
structure ProgressResult where
  message : String
  done : Bool
  err : Option StatusError
  deriving DecidableEq, Repr

def RollingUpdateDaemonSetStrategyType : String := "RollingUpdate"

def RollingUpdateStatefulSetStrategyType : String := "RollingUpdate"

def InPlaceIfPossibleCloneSetUpdateStrategyType : String := "InPlaceIfPossible"

def InPlaceOnlyCloneSetUpdateStrategyType : String := "InPlaceOnly"

def DeploymentProgressing : String := "Progressing"

def TimedOutReason : String := "ProgressDeadlineExceeded"

/-- A deployment status condition (only the fields read by the code). -/
structure DeploymentCondition where
  type : String
  reason : String
  deriving DecidableEq, Repr

structure DeploymentStatus where
  observedGeneration : Int
  replicas : Int
  updatedReplicas : Int
  availableReplicas : Int
  conditions : List DeploymentCondition
  deriving DecidableEq, Repr

/-- appsv1 Deployment, restricted to the fields rollout_status.go reads.
`revisionAnno` models the revision annotation read by deploymentutil.Revision:
`none` = annotation absent (revision 0), `some none` = unparsable annotation,
`some (some v)` = annotation parsing to `v`. -/
structure Deployment where
  name : String
  generation : Int
  revisionAnno : Option (Option Int)
  replicas : Option Int
  status : DeploymentStatus
  deriving DecidableEq, Repr

/-- deploymentutil.Revision: absent annotation yields revision 0 without
error; an unparsable annotation is an error (`none` here). -/
def deploymentutil.Revision (d : Deployment) : Option Int :=
  match d.revisionAnno with
  | none => some 0
  | some none => none
  | some (some v) => some v

def findCondition : List DeploymentCondition → String → Option DeploymentCondition
  | [], _ => none
  | c :: rest, t => if c.type = t then some c else findCondition rest t

/-- deploymentutil.GetDeploymentCondition: first condition of the given type. -/
def GetDeploymentCondition (status : DeploymentStatus) (condType : String) :
    Option DeploymentCondition :=
  findCondition status.conditions condType

def deploymentReplicaChecksTail (d : Deployment) : ProgressResult :=
    if d.status.replicas > d.status.updatedReplicas then
      ⟨"Waiting for deployment \"" ++ d.name ++ "\" rollout to finish: " ++
        toString (d.status.replicas - d.status.updatedReplicas) ++
        " old replicas are pending termination...\n", false, none⟩
    else if d.status.availableReplicas < d.status.updatedReplicas then
      ⟨"Waiting for deployment \"" ++ d.name ++ "\" rollout to finish: " ++
        toString d.status.availableReplicas ++ " of " ++
        toString d.status.updatedReplicas ++
        " updated replicas are available...\n", false, none⟩
    else
      ⟨"deployment \"" ++ d.name ++ "\" successfully rolled out\n", true, none⟩

def deploymentReplicaChecks (d : Deployment) : ProgressResult :=
  match d.replicas with
  | some r =>
    if d.status.updatedReplicas < r then
      ⟨"Waiting for deployment \"" ++ d.name ++ "\" rollout to finish: " ++
        toString d.status.updatedReplicas ++ " out of " ++ toString r ++
        " new replicas have been updated...\n", false, none⟩
    else
      deploymentReplicaChecksTail d
  | none => deploymentReplicaChecksTail d

def deploymentConditionCheck (d : Deployment) : ProgressResult :=
  match GetDeploymentCondition d.status DeploymentProgressing with
  | some cond =>
    if cond.reason = TimedOutReason then
      ⟨"", false, some (.deadlineExceeded d.name)⟩
    else deploymentReplicaChecks d
  | none => deploymentReplicaChecks d

def deploymentObserved (d : Deployment) : ProgressResult :=
  if d.generation ≤ d.status.observedGeneration then deploymentConditionCheck d
  else ⟨"Waiting for deployment spec update to be observed...\n", false, none⟩

/-- DeploymentStatusViewer.Status of rollout_status.go. -/
def DeploymentStatusViewer.Status : Option Deployment → Int → ProgressResult
  | none, _ => ⟨"", false, some .convertFailed⟩
  | some d, revision =>
    if revision > 0 then
      match deploymentutil.Revision d with
      | none => ⟨"", false, some (.revisionGet d.name)⟩
      | some deploymentRev =>
        if revision ≠ deploymentRev then
          ⟨"", false, some (.revisionMismatch revision deploymentRev)⟩
        else deploymentObserved d
    else deploymentObserved d

structure DaemonSetStatus where
  observedGeneration : Int
  updatedNumberScheduled : Int
  desiredNumberScheduled : Int
  numberAvailable : Int
  deriving DecidableEq, Repr

/-- appsv1 DaemonSet, restricted to the fields rollout_status.go reads. -/
structure DaemonSet where
  name : String
  generation : Int
  updateStrategyType : String
  status : DaemonSetStatus
  deriving DecidableEq, Repr

/-- DaemonSetStatusViewer.Status of rollout_status.go (the revision argument
is ignored, as in the source). -/
def DaemonSetStatusViewer.Status : Option DaemonSet → Int → ProgressResult
  | none, _ => ⟨"", false, some .convertFailed⟩
  | some daemon, _ =>
    if daemon.updateStrategyType ≠ RollingUpdateDaemonSetStrategyType then
      ⟨"", true, some .unsupportedStrategy⟩
    else if daemon.generation ≤ daemon.status.observedGeneration then
      if daemon.status.updatedNumberScheduled < daemon.status.desiredNumberScheduled then
        ⟨"Waiting for daemon set \"" ++ daemon.name ++ "\" rollout to finish: " ++
          toString daemon.status.updatedNumberScheduled ++ " out of " ++
          toString daemon.status.desiredNumberScheduled ++
          " new pods have been updated...\n", false, none⟩
      else if daemon.status.numberAvailable < daemon.status.desiredNumberScheduled then
        ⟨"Waiting for daemon set \"" ++ daemon.name ++ "\" rollout to finish: " ++
          toString daemon.status.numberAvailable ++ " of " ++
          toString daemon.status.desiredNumberScheduled ++
          " updated pods are available...\n", false, none⟩
      else ⟨"daemon set \"" ++ daemon.name ++ "\" successfully rolled out\n", true, none⟩
    else ⟨"Waiting for daemon set spec update to be observed...\n", false, none⟩

/-- RollingUpdateStatefulSetStrategy: the optional partition. -/
structure RollingUpdateStatefulSetStrategy where
  partition : Option Int
  deriving DecidableEq, Repr

/-- StatefulSetUpdateStrategy: type plus optional rolling-update sub-policy. -/
structure StatefulSetUpdateStrategy where
  type : String
  rollingUpdate : Option RollingUpdateStatefulSetStrategy
  deriving DecidableEq, Repr

structure StatefulSetStatus where
  observedGeneration : Int
  readyReplicas : Int
  updatedReplicas : Int
  currentReplicas : Int
  updateRevision : String
  currentRevision : String
  deriving DecidableEq, Repr

/-- appsv1 StatefulSet, restricted to the fields rollout_status.go reads. -/
structure StatefulSet where
  name : String
  generation : Int
  replicas : Option Int
  updateStrategy : StatefulSetUpdateStrategy
  status : StatefulSetStatus
  deriving DecidableEq, Repr

def stsRevisionCheck (sts : StatefulSet) : ProgressResult :=
  if sts.status.updateRevision ≠ sts.status.currentRevision then
    ⟨"waiting for statefulset rolling update to complete " ++
      toString sts.status.updatedReplicas ++ " pods at revision " ++
      sts.status.updateRevision ++ "...\n", false, none⟩
  else
    ⟨"statefulset rolling update complete " ++ toString sts.status.currentReplicas ++
      " pods at revision " ++ sts.status.currentRevision ++ "...\n", true, none⟩

def stsPartitionComplete (sts : StatefulSet) : ProgressResult :=
  ⟨"partitioned roll out complete: " ++ toString sts.status.updatedReplicas ++
    " new pods have been updated...\n", true, none⟩

def stsPartitionCheck (sts : StatefulSet) : ProgressResult :=
  match sts.updateStrategy.rollingUpdate with
  | some ru =>
    if sts.updateStrategy.type = RollingUpdateStatefulSetStrategyType then
      match sts.replicas, ru.partition with
      | some r, some p =>
        if sts.status.updatedReplicas < r - p then
          ⟨"Waiting for partitioned roll out to finish: " ++
            toString sts.status.updatedReplicas ++ " out of " ++ toString (r - p) ++
            " new pods have been updated...\n", false, none⟩
        else stsPartitionComplete sts
      | _, _ => stsPartitionComplete sts
    else stsRevisionCheck sts
  | none => stsRevisionCheck sts

def stsReadyCheck (sts : StatefulSet) : ProgressResult :=
  match sts.replicas with
  | some r =>
    if sts.status.readyReplicas < r then
      ⟨"Waiting for " ++ toString (r - sts.status.readyReplicas) ++
        " pods to be ready...\n", false, none⟩
    else stsPartitionCheck sts
  | none => stsPartitionCheck sts

/-- StatefulSetStatusViewer.Status of rollout_status.go (the revision argument
is ignored, as in the source). -/
def StatefulSetStatusViewer.Status : Option StatefulSet → Int → ProgressResult
  | none, _ => ⟨"", false, some .convertFailed⟩
  | some sts, _ =>
    if sts.updateStrategy.type ≠ RollingUpdateStatefulSetStrategyType then
      ⟨"", true, some .unsupportedStrategy⟩
    else if sts.status.observedGeneration = 0 ∨
        sts.generation > sts.status.observedGeneration then
      ⟨"Waiting for statefulset spec update to be observed...\n", false, none⟩
    else stsReadyCheck sts

/-- k8s EnvVar, restricted to name and value. -/
structure EnvVar where
  name : String
  value : String
  deriving DecidableEq, Repr

/-- A container of a pod template: its name, image, and environment list. -/
structure Container where
  name : String
  image : String
  env : List EnvVar
  deriving DecidableEq, Repr

structure PodSpec where
  containers : List Container
  deriving DecidableEq, Repr

structure PodTemplateSpec where
  spec : PodSpec
  deriving DecidableEq, Repr

/-- intstr.IntOrString; `intVal` of a string-valued one is 0, as the IntVal
field read by the CloneSet viewer is then the zero value. -/
inductive IntOrString where
  | int (v : Int)
  | str (s : String)
  deriving DecidableEq, Repr

def IntOrString.intVal : IntOrString → Int
  | .int v => v
  | .str _ => 0

/-- CloneSetUpdateStrategy: type plus optional partition. -/
structure CloneSetUpdateStrategy where
  type : String
  partition : Option IntOrString
  deriving DecidableEq, Repr

structure CloneSetStatus where
  observedGeneration : Int
  readyReplicas : Int
  updatedReplicas : Int
  availableReplicas : Int
  updateRevision : String
  currentRevision : String
  deriving DecidableEq, Repr

/-- kruise v1alpha1 CloneSet, restricted to the fields the code reads. -/
structure CloneSet where
  name : String
  generation : Int
  replicas : Option Int
  updateStrategy : CloneSetUpdateStrategy
  template : PodTemplateSpec
  status : CloneSetStatus
  deriving DecidableEq, Repr

def csGenCheck (cs : CloneSet) : ProgressResult :=
  if cs.status.observedGeneration = 0 ∨ cs.generation > cs.status.observedGeneration then
    ⟨"Waiting for CloneSet spec update to be observed...\n", false, none⟩
  else
    match cs.replicas with
    | some r =>
      if cs.status.readyReplicas < r then
        ⟨"Waiting for " ++ toString (r - cs.status.readyReplicas) ++
          " pods to be ready...\n", false, none⟩
      else
        ⟨"CloneSet rolling update complete " ++ toString cs.status.availableReplicas ++
          " pods at revision " ++ cs.status.updateRevision ++ "...\n", true, none⟩
    | none =>
      ⟨"CloneSet rolling update complete " ++ toString cs.status.availableReplicas ++
        " pods at revision " ++ cs.status.updateRevision ++ "...\n", true, none⟩

/-- CloneSetStatusViewer.Status of rollout_status.go (the revision argument is
ignored, as in the source). -/
def CloneSetStatusViewer.Status : Option CloneSet → Int → ProgressResult
  | none, _ => ⟨"", false, some .convertFailed⟩
  | some cs, _ =>
    if cs.updateStrategy.type = InPlaceOnlyCloneSetUpdateStrategyType ∨
        cs.updateStrategy.type = InPlaceIfPossibleCloneSetUpdateStrategyType then
      match cs.replicas, cs.updateStrategy.partition with
      | some r, some part =>
        if cs.status.updatedReplicas < r - part.intVal then
          ⟨"Waiting for partitioned roll out to finish: " ++
            toString cs.status.updatedReplicas ++ " out of " ++
            toString (r - part.intVal) ++ " new pods have been updated...\n",
            false, none⟩
        else csGenCheck cs
      | _, _ => csGenCheck cs
    else csGenCheck cs

structure AdvancedStatefulSetStatus where
  observedGeneration : Int
  readyReplicas : Int
  updatedReplicas : Int
  availableReplicas : Int
  updateRevision : String
  currentRevision : String
  deriving DecidableEq, Repr

/-- kruise v1beta1 StatefulSet (Advanced StatefulSet), restricted to the
fields the code reads. -/
structure AdvancedStatefulSet where
  name : String
  generation : Int
  replicas : Option Int
  updateStrategy : StatefulSetUpdateStrategy
  template : PodTemplateSpec
  status : AdvancedStatefulSetStatus
  deriving DecidableEq, Repr

def astsGenCheck (asts : AdvancedStatefulSet) : ProgressResult :=
  if asts.status.observedGeneration = 0 ∨
      asts.generation > asts.status.observedGeneration then
    ⟨"Waiting for Advanced StatefulSet spec update to be observed...\n", false, none⟩
  else
    match asts.replicas with
    | some r =>
      if asts.status.readyReplicas < r then
        ⟨"Waiting for " ++ toString (r - asts.status.readyReplicas) ++
          " pods to be ready...\n", false, none⟩
      else
        ⟨"Advanced StatefulSet rolling update complete " ++
          toString asts.status.availableReplicas ++ " pods at revision " ++
          asts.status.updateRevision ++ "...\n", true, none⟩
    | none =>
      ⟨"Advanced StatefulSet rolling update complete " ++
        toString asts.status.availableReplicas ++ " pods at revision " ++
        asts.status.updateRevision ++ "...\n", true, none⟩

/-- AdvancedStatefulSetStatusViewer.Status of rollout_status.go.  The result
is `none` exactly when the source dereferences the nil RollingUpdate pointer
(strategy type RollingUpdate, replicas set, no rolling-update sub-policy),
which panics in Go. -/
def AdvancedStatefulSetStatusViewer.Status :
    Option AdvancedStatefulSet → Int → Option ProgressResult
  | none, _ => some ⟨"", false, some .convertFailed⟩
  | some asts, _ =>
    if asts.updateStrategy.type = RollingUpdateStatefulSetStrategyType then
      match asts.replicas with
      | none => some (astsGenCheck asts)
      | some r =>
        match asts.updateStrategy.rollingUpdate with
        | none => none
        | some ru =>
          match ru.partition with
          | none => some (astsGenCheck asts)
          | some p =>
            if asts.status.updatedReplicas < r - p then
              some ⟨"Waiting for partitioned roll out to finish:" ++
                toString asts.status.updatedReplicas ++ " out of " ++
                toString (r - p) ++ " new pods has been updated...\n",
                false, none⟩
            else some (astsGenCheck asts)
    else some (astsGenCheck asts)

/-- A pod, restricted to a name and a creation timestamp (the fields relevant
to the caller-supplied orderings of GetFirstPod). -/
structure Pod where
  name : String
  creationTimestamp : Int
  deriving DecidableEq, Repr

/-- The result of the pod List call: items plus the resource version the
subsequent watch is started from. -/
structure PodList where
  items : List Pod
  resourceVersion : String
  deriving DecidableEq, Repr

inductive WatchEventType where
  | added
  | modified
  | deleted
  | bookmark
  deriving DecidableEq, Repr

/-- The object carried by a watch event: a pod, or some other object (the
source checks the type assertion `event.Object.(*corev1.Pod)`). -/
inductive WatchEventObject where
  | pod (p : Pod)
  | other
  deriving DecidableEq, Repr

structure WatchEvent where
  type : WatchEventType
  object : WatchEventObject
  deriving DecidableEq, Repr

/-- Errors of the GetFirstPod watch path: the bounded wait expiring
(wait.ErrWaitTimeout from UntilWithoutRetry), and a qualifying event whose
object is not a pod. -/
inductive GetPodError where
  | waitTimeout
  | notPodEvent
  deriving DecidableEq, Repr

/-- The condition closure of GetFirstPod: Added or Modified events qualify. -/
def isQualifying (event : WatchEvent) : Bool :=
  event.type = WatchEventType.added ∨ event.type = WatchEventType.modified

/-- watchtools.UntilWithoutRetry over a finite event stream: the first event
satisfying the condition, or the timeout error when the stream is exhausted
(the context deadline firing). -/
def untilWithoutRetry : List WatchEvent → Except GetPodError WatchEvent
  | [] => .error .waitTimeout
  | e :: rest => if isQualifying e then .ok e else untilWithoutRetry rest

def insertPod (le : Pod → Pod → Bool) (p : Pod) : List Pod → List Pod
  | [] => [p]
  | q :: rest => if le p q then p :: q :: rest else q :: insertPod le p rest

/-- The effect of `sort.Sort(sortBy(pods))`: the pod list reordered by the
caller-supplied comparator (insertion sort). -/
def sortPods (le : Pod → Pod → Bool) : List Pod → List Pod
  | [] => []
  | p :: rest => insertPod le p (sortPods le rest)

/-- GetFirstPod of helpers.go.  The injected collaborators are the result of
the initial List call and the watch opened at a given resource version,
modelled as a finite event stream; the caller-supplied sort order is the
comparator `le`. -/
def GetFirstPod (le : Pod → Pod → Bool) (podList : PodList)
    (watch : String → List WatchEvent) : Except GetPodError (Pod × Nat) :=
  match sortPods le podList.items with
  | p :: _ => .ok (p, podList.items.length)
  | [] =>
    match untilWithoutRetry (watch podList.resourceVersion) with
    | .error e => .error e
    | .ok event =>
      match event.object with
      | .pod p => .ok (p, 1)
      | .other => .error .notPodEvent

/-- findEnv of helpers.go: the first entry of the given name; the `(zero,
false)` case is `none`. -/
def findEnv : List EnvVar → String → Option EnvVar
  | [], _ => none
  | e :: rest, name => if e.name = name then some e else findEnv rest name

/-- The first loop of updateEnv: walk `existing`, dropping covered names,
replacing entries whose name occurs in `env` (and covering that name), and
keeping the rest.  Returns the final covered set and the output prefix. -/
def updateEnvReplace (env : List EnvVar) :
    List String → List EnvVar → List String × List EnvVar
  | covered, [] => (covered, [])
  | covered, e :: rest =>
    if e.name ∈ covered then updateEnvReplace env covered rest
    else
      match findEnv env e.name with
      | some newer =>
        ((updateEnvReplace env (e.name :: covered) rest).1,
          newer :: (updateEnvReplace env (e.name :: covered) rest).2)
      | none =>
        ((updateEnvReplace env covered rest).1,
          e :: (updateEnvReplace env covered rest).2)

/-- The second loop of updateEnv: append the entries of `env` whose name is
not yet covered, covering each appended name. -/
def updateEnvAppend : List String → List EnvVar → List EnvVar
  | _, [] => []
  | covered, e :: rest =>
    if e.name ∈ covered then updateEnvAppend covered rest
    else e :: updateEnvAppend (e.name :: covered) rest

/-- updateEnv of helpers.go. -/
def updateEnv (existing env : List EnvVar) (remove : List String) : List EnvVar :=
  let p := updateEnvReplace env remove existing
  p.2 ++ updateEnvAppend p.1 env

def RestartedEnv : String := "RESTARTED_AT"

/-- The runtime.Object argument of UpdateResourceEnv: one constructor per
workload type modelled here, plus a stand-in for any other object. -/
inductive K8sObject where
  | cloneSet (cs : CloneSet)
  | advancedStatefulSet (asts : AdvancedStatefulSet)
  | statefulSet (sts : StatefulSet)
  | daemonSet (ds : DaemonSet)
  | deployment (d : Deployment)
  | otherObject (tag : String)
  deriving DecidableEq, Repr

/-- UpdateResourceEnv of helpers.go; `now` is the formatted time.Now() value
placed in the RESTARTED_AT variable.  Only CloneSet and kruise v1beta1
StatefulSet objects are touched; the in-place mutation is modelled by
returning the updated object. -/
def restartContainer (now : String) (c : Container) : Container :=
  { c with env := updateEnv c.env [⟨RestartedEnv, now⟩] [] }

def UpdateResourceEnv (now : String) : K8sObject → K8sObject
  | .cloneSet cs =>
    .cloneSet { cs with
      template := ⟨⟨cs.template.spec.containers.map (restartContainer now)⟩⟩ }
  | .advancedStatefulSet asts =>
    .advancedStatefulSet { asts with
      template := ⟨⟨asts.template.spec.containers.map (restartContainer now)⟩⟩ }
  | obj => obj

/-- The Deployment snapshot carries a Progressing condition with the
timed-out reason (the state line 92 of rollout_status.go reacts to). -/
def deploymentTimedOut (d : Deployment) : Prop :=
  ∃ c, GetDeploymentCondition d.status DeploymentProgressing = some c ∧
    c.reason = TimedOutReason

/-- The CloneSet viewer's leading partition-shortfall branch fires. -/
def csPartitionShortfall (cs : CloneSet) : Prop :=
  (cs.updateStrategy.type = InPlaceOnlyCloneSetUpdateStrategyType ∨
    cs.updateStrategy.type = InPlaceIfPossibleCloneSetUpdateStrategyType) ∧
  ∃ r part, cs.replicas = some r ∧ cs.updateStrategy.partition = some part ∧
    cs.status.updatedReplicas < r - part.intVal

/-- The Advanced StatefulSet viewer's leading partition-shortfall branch
fires. -/
def astsPartitionShortfall (asts : AdvancedStatefulSet) : Prop :=
  asts.updateStrategy.type = RollingUpdateStatefulSetStrategyType ∧
  ∃ r ru p, asts.replicas = some r ∧
    asts.updateStrategy.rollingUpdate = some ru ∧ ru.partition = some p ∧
    asts.status.updatedReplicas < r - p

/-- The Advanced StatefulSet viewer dereferences a nil RollingUpdate pointer
(the Go code panics). -/
def astsNilRollingUpdate (asts : AdvancedStatefulSet) : Prop :=
  asts.updateStrategy.type = RollingUpdateStatefulSetStrategyType ∧
  (∃ r, asts.replicas = some r) ∧ asts.updateStrategy.rollingUpdate = none

/-- A DaemonSet with a non-rolling strategy and a stale observed generation. -/
def dsStaleOnDelete : DaemonSet :=
  { name := "fluentd", generation := 2, updateStrategyType := "OnDelete",
    status := { observedGeneration := 1, updatedNumberScheduled := 0,
                desiredNumberScheduled := 0, numberAvailable := 0 } }

/-- A DaemonSet with a rolling strategy and a stale observed generation. -/
def dsStaleRolling : DaemonSet :=
  { name := "fluentd", generation := 5, updateStrategyType := "RollingUpdate",
    status := { observedGeneration := 3, updatedNumberScheduled := 7,
                desiredNumberScheduled := 7, numberAvailable := 7 } }

/-- A StatefulSet with an OnDelete strategy (otherwise converged). -/
def stsOnDelete : StatefulSet :=
  { name := "web", generation := 1, replicas := some 1,
    updateStrategy := { type := "OnDelete", rollingUpdate := none },
    status := { observedGeneration := 1, readyReplicas := 1,
                updatedReplicas := 1, currentReplicas := 1,
                updateRevision := "web-r1", currentRevision := "web-r1" } }

/-- A converged Deployment (for the C2 witness). -/
def dConverged : Deployment :=
  { name := "api", generation := 4, revisionAnno := none, replicas := some 2,
    status := { observedGeneration := 4, replicas := 2, updatedReplicas := 2,
                availableReplicas := 2, conditions := [] } }

/-- A CloneSet that is done while its update and current revisions differ. -/
def csMidTransition : CloneSet :=
  { name := "sample", generation := 1, replicas := some 1,
    updateStrategy := { type := "ReCreate", partition := none },
    template := ⟨⟨[]⟩⟩,
    status := { observedGeneration := 1, readyReplicas := 1,
                updatedReplicas := 0, availableReplicas := 1,
                updateRevision := "rev-b", currentRevision := "rev-a" } }

/-- A rolling StatefulSet with no rolling-update sub-policy, converged at one
revision (for the C3 witness). -/
def stsConverged : StatefulSet :=
  { name := "db", generation := 2, replicas := some 3,
    updateStrategy := { type := "RollingUpdate", rollingUpdate := none },
    status := { observedGeneration := 2, readyReplicas := 3,
                updatedReplicas := 3, currentReplicas := 3,
                updateRevision := "db-r7", currentRevision := "db-r7" } }

/-- A partitioned rolling StatefulSet: 5 replicas, partition 2, 3 updated
(the scenario of the spec). -/
def stsPartitioned : StatefulSet :=
  { name := "web", generation := 3, replicas := some 5,
    updateStrategy := { type := "RollingUpdate",
                        rollingUpdate := some { partition := some 2 } },
    status := { observedGeneration := 3, readyReplicas := 5,
                updatedReplicas := 3, currentReplicas := 2,
                updateRevision := "web-r2", currentRevision := "web-r1" } }

/-- A Deployment mid-rollout: desired 3, updated 1, available 1 (the spec's
scenario for C5). -/
def dMidRollout : Deployment :=
  { name := "nginx", generation := 1, revisionAnno := none, replicas := some 3,
    status := { observedGeneration := 1, replicas := 1, updatedReplicas := 1,
                availableReplicas := 1, conditions := [] } }

/-- A Deployment whose Progressing condition reports the progress deadline
exceeded. -/
def dDeadline : Deployment :=
  { name := "slow", generation := 1, revisionAnno := none, replicas := some 3,
    status := { observedGeneration := 1, replicas := 3, updatedReplicas := 1,
                availableReplicas := 1,
                conditions := [{ type := "Progressing",
                                 reason := "ProgressDeadlineExceeded" }] } }

/-- A second deadline-exceeded Deployment (for the C6 witness). -/
def dDeadline2 : Deployment :=
  { name := "slower", generation := 7, revisionAnno := none, replicas := none,
    status := { observedGeneration := 9, replicas := 0, updatedReplicas := 0,
                availableReplicas := 0,
                conditions := [{ type := "Available",
                                 reason := "MinimumReplicasAvailable" },
                               { type := "Progressing",
                                 reason := "ProgressDeadlineExceeded" }] } }

/-- Most-recently-created-first comparator (an example caller-supplied
ordering for GetFirstPod). -/
def byCreationDesc (p q : Pod) : Bool :=
  q.creationTimestamp ≤ p.creationTimestamp

def podOld : Pod := { name := "pod-old", creationTimestamp := 1 }

def podNew : Pod := { name := "pod-new", creationTimestamp := 9 }

def podWatched : Pod := { name := "pod-watched", creationTimestamp := 4 }

def podListTwo : PodList := { items := [podOld, podNew], resourceVersion := "41" }

def podListEmpty : PodList := { items := [], resourceVersion := "42" }

/-- A watch stream with a non-qualifying event before the first qualifying
pod event. -/
def watchStream : String → List WatchEvent := fun _ =>
  [⟨.deleted, .other⟩, ⟨.added, .pod podWatched⟩]

/-- A watch stream with no qualifying event at all. -/
def watchStreamEmpty : String → List WatchEvent := fun _ => [⟨.deleted, .other⟩]

def exEnvVars : List EnvVar := [⟨"A", "1"⟩, ⟨"B", "2"⟩, ⟨"C", "3"⟩]

def addEnvVars : List EnvVar := [⟨"B", "9"⟩, ⟨"D", "4"⟩]

def rmEnvNames : List String := ["C"]

/-- A CloneSet with two containers (for the C10 witness). -/
def csTwoContainers : CloneSet :=
  { name := "sample", generation := 6, replicas := some 2,
    updateStrategy := { type := "InPlaceIfPossible", partition := none },
    template := ⟨⟨[{ name := "app", image := "app:v1", env := [⟨"A", "1"⟩] },
                   { name := "sidecar", image := "sc:v2",
                     env := [⟨"RESTARTED_AT", "2020-01-01T00:00:00Z"⟩] }]⟩⟩,
    status := { observedGeneration := 6, readyReplicas := 2,
                updatedReplicas := 2, availableReplicas := 2,
                updateRevision := "s-r2", currentRevision := "s-r2" } }

theorem deploymentReplicaChecksTail_err (d : Deployment) :
    (deploymentReplicaChecksTail d).err = none := by
  unfold deploymentReplicaChecksTail
  split
  · rfl
  · split <;> rfl

theorem deploymentReplicaChecks_err (d : Deployment) :
    (deploymentReplicaChecks d).err = none := by
  unfold deploymentReplicaChecks
  split
  · split
    · rfl
    · exact deploymentReplicaChecksTail_err d
  · exact deploymentReplicaChecksTail_err d

theorem deploymentObserved_done_err (d : Deployment) :
    (deploymentObserved d).done = true → (deploymentObserved d).err = none := by
  unfold deploymentObserved deploymentConditionCheck
  split
  · split
    · split
      · intro h; simp at h
      · intro _; exact deploymentReplicaChecks_err d
    · intro _; exact deploymentReplicaChecks_err d
  · intro h; simp at h

theorem stsRevisionCheck_err (sts : StatefulSet) :
    (stsRevisionCheck sts).err = none := by
  unfold stsRevisionCheck
  split <;> rfl

theorem stsPartitionCheck_err (sts : StatefulSet) :
    (stsPartitionCheck sts).err = none := by
  unfold stsPartitionCheck
  split
  · split
    · split
      · split <;> rfl
      · rfl
    · exact stsRevisionCheck_err sts
  · exact stsRevisionCheck_err sts

theorem stsReadyCheck_err (sts : StatefulSet) :
    (stsReadyCheck sts).err = none := by
  unfold stsReadyCheck
  split
  · split
    · rfl
    · exact stsPartitionCheck_err sts
  · exact stsPartitionCheck_err sts

theorem csGenCheck_err (cs : CloneSet) :
    (csGenCheck cs).err = none := by
  unfold csGenCheck
  split
  · rfl
  · split
    · split <;> rfl
    · rfl

theorem astsGenCheck_err (asts : AdvancedStatefulSet) :
    (astsGenCheck asts).err = none := by
  unfold astsGenCheck
  split
  · rfl
  · split
    · split <;> rfl
    · rfl

/-- Claim C1 counterexample: a DaemonSet snapshot with
observedGeneration < generation but a non-rolling update strategy makes the
DaemonSet evaluator return done=true together with a non-nil error, not the
claimed done=false / error=nil waiting answer. -/
theorem claim_C1_counterexample :
    dsStaleOnDelete.status.observedGeneration < dsStaleOnDelete.generation ∧
    (DaemonSetStatusViewer.Status (some dsStaleOnDelete) 0).done = true ∧
    (DaemonSetStatusViewer.Status (some dsStaleOnDelete) 0).err =
      some .unsupportedStrategy := by
  refine ⟨by decide, ?_, ?_⟩ <;> rfl

/-- Claim C1 (amended): for every snapshot with
observedGeneration < generation, each evaluator returns done=false,
error=nil with its kind's "waiting for spec update to be observed" message,
provided the checks that the source places before the generation gate pass:
for Deployment no requested-revision mismatch, for DaemonSet and StatefulSet
a RollingUpdate strategy, for CloneSet no leading partition shortfall, and
for Advanced StatefulSet no leading partition shortfall and no nil
rolling-update dereference. -/
theorem claim_C1_thm :
    (∀ (d : Deployment) (rev : Int),
        (rev ≤ 0 ∨ deploymentutil.Revision d = some rev) →
        d.status.observedGeneration < d.generation →
        DeploymentStatusViewer.Status (some d) rev =
          ⟨"Waiting for deployment spec update to be observed...\n", false, none⟩) ∧
    (∀ (ds : DaemonSet) (rev : Int),
        ds.updateStrategyType = RollingUpdateDaemonSetStrategyType →
        ds.status.observedGeneration < ds.generation →
        DaemonSetStatusViewer.Status (some ds) rev =
          ⟨"Waiting for daemon set spec update to be observed...\n", false, none⟩) ∧
    (∀ (sts : StatefulSet) (rev : Int),
        sts.updateStrategy.type = RollingUpdateStatefulSetStrategyType →
        sts.status.observedGeneration < sts.generation →
        StatefulSetStatusViewer.Status (some sts) rev =
          ⟨"Waiting for statefulset spec update to be observed...\n", false, none⟩) ∧
    (∀ (cs : CloneSet) (rev : Int),
        ¬ csPartitionShortfall cs →
        cs.status.observedGeneration < cs.generation →
        CloneSetStatusViewer.Status (some cs) rev =
          ⟨"Waiting for CloneSet spec update to be observed...\n", false, none⟩) ∧
    (∀ (asts : AdvancedStatefulSet) (rev : Int),
        ¬ astsNilRollingUpdate asts → ¬ astsPartitionShortfall asts →
        asts.status.observedGeneration < asts.generation →
        AdvancedStatefulSetStatusViewer.Status (some asts) rev =
          some ⟨"Waiting for Advanced StatefulSet spec update to be observed...\n",
            false, none⟩) := by
  refine ⟨?_, ?_, ?_, ?_, ?_⟩
  · intro d rev hrev hgen
    have hobs : ¬ d.generation ≤ d.status.observedGeneration := by omega
    have hw : deploymentObserved d =
        ⟨"Waiting for deployment spec update to be observed...\n", false, none⟩ := by
      unfold deploymentObserved
      exact if_neg hobs
    rcases hrev with h | h
    · have h0 : ¬ rev > 0 := by omega
      simp [DeploymentStatusViewer.Status, h0, hw]
    · by_cases h0 : rev > 0
      · simp [DeploymentStatusViewer.Status, h0, h, hw]
      · simp [DeploymentStatusViewer.Status, h0, hw]
  · intro ds rev hty hgen
    have hobs : ¬ ds.generation ≤ ds.status.observedGeneration := by omega
    simp [DaemonSetStatusViewer.Status, hty, hobs]
  · intro sts rev hty hgen
    simp [StatefulSetStatusViewer.Status, hty, hgen]
  · intro cs rev hns hgen
    have hw : csGenCheck cs =
        ⟨"Waiting for CloneSet spec update to be observed...\n", false, none⟩ := by
      unfold csGenCheck
      exact if_pos (Or.inr hgen)
    by_cases hty : cs.updateStrategy.type = InPlaceOnlyCloneSetUpdateStrategyType ∨
        cs.updateStrategy.type = InPlaceIfPossibleCloneSetUpdateStrategyType
    · rcases hr : cs.replicas with _ | r <;>
        rcases hp : cs.updateStrategy.partition with _ | part <;>
        simp [CloneSetStatusViewer.Status, hty, hr, hp, hw]
      have hnlt : ¬ cs.status.updatedReplicas < r - part.intVal :=
        fun hlt => hns ⟨hty, r, part, hr, hp, hlt⟩
      simp [hnlt]
    · simp [CloneSetStatusViewer.Status, hty, hw]
  · intro asts rev hnil hshort hgen
    have hw : astsGenCheck asts =
        ⟨"Waiting for Advanced StatefulSet spec update to be observed...\n",
          false, none⟩ := by
      unfold astsGenCheck
      exact if_pos (Or.inr hgen)
    by_cases hty : asts.updateStrategy.type = RollingUpdateStatefulSetStrategyType
    · rcases hr : asts.replicas with _ | r
      · simp [AdvancedStatefulSetStatusViewer.Status, hty, hr, hw]
      · rcases hru : asts.updateStrategy.rollingUpdate with _ | ru
        · exact absurd ⟨hty, ⟨r, hr⟩, hru⟩ hnil
        · rcases hpt : ru.partition with _ | p
          · simp [AdvancedStatefulSetStatusViewer.Status, hty, hr, hru, hpt, hw]
          · have hnlt : ¬ asts.status.updatedReplicas < r - p :=
              fun hlt => hshort ⟨hty, r, ru, p, hr, hru, hpt, hlt⟩
            simp [AdvancedStatefulSetStatusViewer.Status, hty, hr, hru, hpt,
              hnlt, hw]
    · simp [AdvancedStatefulSetStatusViewer.Status, hty, hw]

/-- Claim C1 witness: the amended statement applied to a concrete rolling
DaemonSet with a stale observed generation. -/
theorem claim_C1_witness :
    DaemonSetStatusViewer.Status (some dsStaleRolling) 0 =
      ⟨"Waiting for daemon set spec update to be observed...\n", false, none⟩ :=
  claim_C1_thm.2.1 dsStaleRolling 0 rfl (by decide)

theorem cloneSetStatus_some_err (cs : CloneSet) (rev : Int) :
    (CloneSetStatusViewer.Status (some cs) rev).err = none := by
  simp only [CloneSetStatusViewer.Status]
  split
  all_goals try exact csGenCheck_err cs
  split
  all_goals try exact csGenCheck_err cs
  split
  · rfl
  · exact csGenCheck_err cs

theorem astsStatus_some_err (asts : AdvancedStatefulSet) (rev : Int)
    (r : ProgressResult) :
    AdvancedStatefulSetStatusViewer.Status (some asts) rev = some r →
    r.err = none := by
  simp only [AdvancedStatefulSetStatusViewer.Status]
  split
  · split
    · intro h
      injection h with h
      subst h
      exact astsGenCheck_err asts
    · split
      · intro h; cases h
      · split
        · intro h
          injection h with h
          subst h
          exact astsGenCheck_err asts
        · split
          · intro h
            injection h with h
            subst h
            rfl
          · intro h
            injection h with h
            subst h
            exact astsGenCheck_err asts
  · intro h
    injection h with h
    subst h
    exact astsGenCheck_err asts

/-- Claim C2 counterexample: a StatefulSet with an OnDelete strategy makes
the StatefulSet evaluator return done=true together with a non-nil error, so
error and done=true do co-occur. -/
theorem claim_C2_counterexample :
    (StatefulSetStatusViewer.Status (some stsOnDelete) 0).done = true ∧
    (StatefulSetStatusViewer.Status (some stsOnDelete) 0).err =
      some .unsupportedStrategy := by
  exact ⟨rfl, rfl⟩

/-- Claim C2 (amended): done=true and a non-nil error co-occur only in the
unsupported-strategy answers of the DaemonSet and StatefulSet evaluators;
every other done=true result of every evaluator has error=nil. -/
theorem claim_C2_thm :
    (∀ (obj : Option Deployment) (rev : Int),
        (DeploymentStatusViewer.Status obj rev).done = true →
        (DeploymentStatusViewer.Status obj rev).err = none) ∧
    (∀ (obj : Option CloneSet) (rev : Int),
        (CloneSetStatusViewer.Status obj rev).done = true →
        (CloneSetStatusViewer.Status obj rev).err = none) ∧
    (∀ (obj : Option AdvancedStatefulSet) (rev : Int) (r : ProgressResult),
        AdvancedStatefulSetStatusViewer.Status obj rev = some r →
        r.done = true → r.err = none) ∧
    (∀ (obj : Option DaemonSet) (rev : Int),
        (DaemonSetStatusViewer.Status obj rev).done = true →
        (DaemonSetStatusViewer.Status obj rev).err = none ∨
          (DaemonSetStatusViewer.Status obj rev).err =
            some .unsupportedStrategy) ∧
    (∀ (obj : Option StatefulSet) (rev : Int),
        (StatefulSetStatusViewer.Status obj rev).done = true →
        (StatefulSetStatusViewer.Status obj rev).err = none ∨
          (StatefulSetStatusViewer.Status obj rev).err =
            some .unsupportedStrategy) := by
  refine ⟨?_, ?_, ?_, ?_, ?_⟩
  · rintro (_ | d) rev
    · intro h; simp [DeploymentStatusViewer.Status] at h
    · simp only [DeploymentStatusViewer.Status]
      split
      · split
        · intro h; simp at h
        · split
          · intro h; simp at h
          · exact deploymentObserved_done_err d
      · exact deploymentObserved_done_err d
  · rintro (_ | cs) rev
    · intro h; simp [CloneSetStatusViewer.Status] at h
    · intro _; exact cloneSetStatus_some_err cs rev
  · rintro (_ | asts) rev r
    · intro h
      simp only [AdvancedStatefulSetStatusViewer.Status] at h
      injection h with h
      subst h
      intro h; simp at h
    · intro h _; exact astsStatus_some_err asts rev r h
  · rintro (_ | ds) rev
    · intro h; simp [DaemonSetStatusViewer.Status] at h
    · simp only [DaemonSetStatusViewer.Status]
      split
      · intro _; exact Or.inr rfl
      · split
        · split
          · intro h; simp at h
          · split
            · intro h; simp at h
            · intro _; exact Or.inl rfl
        · intro h; simp at h
  · rintro (_ | sts) rev
    · intro h; simp [StatefulSetStatusViewer.Status] at h
    · simp only [StatefulSetStatusViewer.Status]
      split
      · intro _; exact Or.inr rfl
      · split
        · intro h; simp at h
        · intro _; exact Or.inl (stsReadyCheck_err sts)

/-- Claim C2 witness: the amended statement applied to a converged concrete
Deployment whose evaluator answers done=true. -/
theorem claim_C2_witness :
    (DeploymentStatusViewer.Status (some dConverged) 0).err = none :=
  claim_C2_thm.1 (some dConverged) 0 rfl

/-- Claim C3 counterexample: a CloneSet whose update and current revisions
differ is still reported done=true by its evaluator, so revision equality is
not required by every revision-bearing kind. -/
theorem claim_C3_counterexample :
    csMidTransition.status.updateRevision ≠ csMidTransition.status.currentRevision ∧
    (CloneSetStatusViewer.Status (some csMidTransition) 0).done = true := by
  exact ⟨by decide, rfl⟩

/-- Claim C3 (amended): only the plain StatefulSet evaluator, under a
rolling-update strategy with no rolling-update sub-policy, requires
updateRevision = currentRevision for done=true; the CloneSet and Advanced
StatefulSet evaluators' answers are entirely independent of currentRevision. -/
theorem claim_C3_thm :
    (∀ (sts : StatefulSet) (rev : Int),
        sts.updateStrategy.type = RollingUpdateStatefulSetStrategyType →
        sts.updateStrategy.rollingUpdate = none →
        (StatefulSetStatusViewer.Status (some sts) rev).done = true →
        sts.status.updateRevision = sts.status.currentRevision) ∧
    (∀ (cs : CloneSet) (rev : Int) (r : String),
        CloneSetStatusViewer.Status
          (some { cs with status := { cs.status with currentRevision := r } }) rev =
        CloneSetStatusViewer.Status (some cs) rev) ∧
    (∀ (asts : AdvancedStatefulSet) (rev : Int) (r : String),
        AdvancedStatefulSetStatusViewer.Status
          (some { asts with status := { asts.status with currentRevision := r } }) rev =
        AdvancedStatefulSetStatusViewer.Status (some asts) rev) := by
  refine ⟨?_, ?_, ?_⟩
  · intro sts rev hty hru
    have h1 : ¬ sts.updateStrategy.type ≠ RollingUpdateStatefulSetStrategyType := by
      simp [hty]
    have hpc : stsPartitionCheck sts = stsRevisionCheck sts := by
      unfold stsPartitionCheck
      rw [hru]
    have hrc : (stsRevisionCheck sts).done = true →
        sts.status.updateRevision = sts.status.currentRevision := by
      unfold stsRevisionCheck
      split
      · intro h; simp at h
      · rename_i hne
        intro _
        exact not_ne_iff.mp hne
    simp only [StatefulSetStatusViewer.Status, if_neg h1]
    split
    · intro h; simp at h
    · unfold stsReadyCheck
      split
      · split
        · intro h; simp at h
        · rw [hpc]; exact hrc
      · rw [hpc]; exact hrc
  · intro cs rev r
    rfl
  · intro asts rev r
    rfl

/-- Claim C3 witness: the amended StatefulSet statement applied to a
converged concrete StatefulSet. -/
theorem claim_C3_witness :
    stsConverged.status.updateRevision = stsConverged.status.currentRevision :=
  claim_C3_thm.1 stsConverged 0 rfl rfl rfl

/-- Claim C4: for partitioned rolling updates the updated-target is
desiredReplicas - partition; while updatedReplicas is below it the evaluator
reports the partition shortfall with done=false, and once updatedReplicas
reaches it the StatefulSet evaluator reports partitioned-rollout completion
with done=true (after the generation and readiness gates), while the
CloneSet evaluator proceeds to its generation/readiness checks and then
reports done=true. -/
theorem claim_C4_thm :
    (∀ (sts : StatefulSet) (rev r p : Int) (ru : RollingUpdateStatefulSetStrategy),
        sts.updateStrategy.type = RollingUpdateStatefulSetStrategyType →
        sts.updateStrategy.rollingUpdate = some ru →
        ru.partition = some p →
        sts.replicas = some r →
        ¬ (sts.status.observedGeneration = 0 ∨
            sts.generation > sts.status.observedGeneration) →
        r ≤ sts.status.readyReplicas →
        (sts.status.updatedReplicas < r - p →
          StatefulSetStatusViewer.Status (some sts) rev =
            ⟨"Waiting for partitioned roll out to finish: " ++
              toString sts.status.updatedReplicas ++ " out of " ++
              toString (r - p) ++ " new pods have been updated...\n",
              false, none⟩) ∧
        (r - p ≤ sts.status.updatedReplicas →
          StatefulSetStatusViewer.Status (some sts) rev =
            ⟨"partitioned roll out complete: " ++
              toString sts.status.updatedReplicas ++
              " new pods have been updated...\n", true, none⟩)) ∧
    (∀ (cs : CloneSet) (rev r : Int) (part : IntOrString),
        (cs.updateStrategy.type = InPlaceOnlyCloneSetUpdateStrategyType ∨
          cs.updateStrategy.type = InPlaceIfPossibleCloneSetUpdateStrategyType) →
        cs.replicas = some r →
        cs.updateStrategy.partition = some part →
        (cs.status.updatedReplicas < r - part.intVal →
          CloneSetStatusViewer.Status (some cs) rev =
            ⟨"Waiting for partitioned roll out to finish: " ++
              toString cs.status.updatedReplicas ++ " out of " ++
              toString (r - part.intVal) ++ " new pods have been updated...\n",
              false, none⟩) ∧
        (r - part.intVal ≤ cs.status.updatedReplicas →
          CloneSetStatusViewer.Status (some cs) rev = csGenCheck cs) ∧
        (r - part.intVal ≤ cs.status.updatedReplicas →
          ¬ (cs.status.observedGeneration = 0 ∨
              cs.generation > cs.status.observedGeneration) →
          r ≤ cs.status.readyReplicas →
          (CloneSetStatusViewer.Status (some cs) rev).done = true)) := by
  constructor
  · intro sts rev r p ru hty hru hp hr hgen hready
    have h1 : ¬ sts.updateStrategy.type ≠ RollingUpdateStatefulSetStrategyType := by
      simp [hty]
    have hnready : ¬ sts.status.readyReplicas < r := by omega
    constructor
    · intro hlt
      simp [StatefulSetStatusViewer.Status, h1, hgen, stsReadyCheck, hr, hnready,
        stsPartitionCheck, hru, hty, hp, hlt]
    · intro hge
      have hnlt : ¬ sts.status.updatedReplicas < r - p := by omega
      simp [StatefulSetStatusViewer.Status, h1, hgen, stsReadyCheck, hr, hnready,
        stsPartitionCheck, hru, hty, hp, hnlt, stsPartitionComplete]
  · intro cs rev r part hty hr hp
    refine ⟨?_, ?_, ?_⟩
    · intro hlt
      simp [CloneSetStatusViewer.Status, hty, hr, hp, hlt]
    · intro hge
      have hnlt : ¬ cs.status.updatedReplicas < r - part.intVal := by omega
      simp [CloneSetStatusViewer.Status, hty, hr, hp, hnlt]
    · intro hge hgen hready
      have hnlt : ¬ cs.status.updatedReplicas < r - part.intVal := by omega
      have hnr : ¬ cs.status.readyReplicas < r := by omega
      simp [CloneSetStatusViewer.Status, hty, hr, hp, hnlt, csGenCheck, hgen, hnr]

/-- Claim C4 witness: the StatefulSet statement applied to the spec's
concrete scenario (5 replicas, partition 2, 3 updated). -/
theorem claim_C4_witness :
    StatefulSetStatusViewer.Status (some stsPartitioned) 0 =
      ⟨"partitioned roll out complete: 3 new pods have been updated...\n",
        true, none⟩ :=
  (claim_C4_thm.1 stsPartitioned 0 5 2 { partition := some 2 }
    rfl rfl rfl rfl (by decide) (by decide)).2 (by decide)

/-- Claim C5: once the Deployment evaluator reaches its replica checks
(generation observed, no requested revision, no timed-out condition), the
checks run in the fixed order updated-below-desired, stale-replicas-present,
available-below-updated, the first unmet one producing its message with
done=false, and the terminal case reporting success with done=true. -/
theorem claim_C5_thm (d : Deployment) (rev r : Int)
    (hrev : rev ≤ 0)
    (hr : d.replicas = some r)
    (hgen : d.generation ≤ d.status.observedGeneration)
    (hcond : ¬ deploymentTimedOut d) :
    (d.status.updatedReplicas < r →
      DeploymentStatusViewer.Status (some d) rev =
        ⟨"Waiting for deployment \"" ++ d.name ++ "\" rollout to finish: " ++
          toString d.status.updatedReplicas ++ " out of " ++ toString r ++
          " new replicas have been updated...\n", false, none⟩) ∧
    (r ≤ d.status.updatedReplicas →
      d.status.updatedReplicas < d.status.replicas →
      DeploymentStatusViewer.Status (some d) rev =
        ⟨"Waiting for deployment \"" ++ d.name ++ "\" rollout to finish: " ++
          toString (d.status.replicas - d.status.updatedReplicas) ++
          " old replicas are pending termination...\n", false, none⟩) ∧
    (r ≤ d.status.updatedReplicas →
      d.status.replicas ≤ d.status.updatedReplicas →
      d.status.availableReplicas < d.status.updatedReplicas →
      DeploymentStatusViewer.Status (some d) rev =
        ⟨"Waiting for deployment \"" ++ d.name ++ "\" rollout to finish: " ++
          toString d.status.availableReplicas ++ " of " ++
          toString d.status.updatedReplicas ++
          " updated replicas are available...\n", false, none⟩) ∧
    (r ≤ d.status.updatedReplicas →
      d.status.replicas ≤ d.status.updatedReplicas →
      d.status.updatedReplicas ≤ d.status.availableReplicas →
      DeploymentStatusViewer.Status (some d) rev =
        ⟨"deployment \"" ++ d.name ++ "\" successfully rolled out\n",
          true, none⟩) := by
  have h0 : ¬ rev > 0 := by omega
  have hcc : deploymentConditionCheck d = deploymentReplicaChecks d := by
    unfold deploymentConditionCheck
    split
    · rename_i cond hfind
      split
      · rename_i hreason
        exact absurd ⟨cond, hfind, hreason⟩ hcond
      · rfl
    · rfl
  have hS : DeploymentStatusViewer.Status (some d) rev = deploymentReplicaChecks d := by
    simp [DeploymentStatusViewer.Status, h0, deploymentObserved, hgen, hcc]
  refine ⟨?_, ?_, ?_, ?_⟩
  · intro hlt
    simp [hS, deploymentReplicaChecks, hr, hlt]
  · intro hge hstale
    have hnlt : ¬ d.status.updatedReplicas < r := by omega
    simp [hS, deploymentReplicaChecks, hr, hnlt, deploymentReplicaChecksTail, hstale]
  · intro hge hnostale hav
    have hnlt : ¬ d.status.updatedReplicas < r := by omega
    have hns : ¬ d.status.replicas > d.status.updatedReplicas := by omega
    simp [hS, deploymentReplicaChecks, hr, hnlt, deploymentReplicaChecksTail, hns, hav]
  · intro hge hnostale hok
    have hnlt : ¬ d.status.updatedReplicas < r := by omega
    have hns : ¬ d.status.replicas > d.status.updatedReplicas := by omega
    have hna : ¬ d.status.availableReplicas < d.status.updatedReplicas := by omega
    simp [hS, deploymentReplicaChecks, hr, hnlt, deploymentReplicaChecksTail, hns, hna]

/-- Claim C5 witness: the spec's scenario — desired=3, updated=1,
available=1 yields the "1 out of 3" updated-message with done=false. -/
theorem claim_C5_witness :
    DeploymentStatusViewer.Status (some dMidRollout) 0 =
      ⟨"Waiting for deployment \"nginx\" rollout to finish: 1 out of 3 new replicas have been updated...\n",
        false, none⟩ :=
  (claim_C5_thm dMidRollout 0 3 (by decide) rfl (by decide)
    (fun ⟨_, hc, _⟩ => Option.noConfusion hc)).1 (by decide)

/-- Claim C6 counterexample: the Deployment evaluator itself detects an
exceeded progress deadline (Progressing condition with the timed-out reason)
and returns an error, so that failure mode is not surfaced only by the
caller's polling loop. -/
theorem claim_C6_counterexample :
    DeploymentStatusViewer.Status (some dDeadline) 0 =
      ⟨"", false, some (.deadlineExceeded "slow")⟩ := rfl

/-- Claim C6 (amended): the Deployment evaluator detects the progress
deadline internally — an observed generation with a timed-out Progressing
condition yields the deadline error — while the DaemonSet, StatefulSet,
CloneSet and Advanced StatefulSet evaluators never return a
progress-deadline error. -/
theorem claim_C6_thm :
    (∀ (d : Deployment) (rev : Int),
        rev ≤ 0 → d.generation ≤ d.status.observedGeneration →
        deploymentTimedOut d →
        DeploymentStatusViewer.Status (some d) rev =
          ⟨"", false, some (.deadlineExceeded d.name)⟩) ∧
    (∀ (obj : Option DaemonSet) (rev : Int) (n : String),
        (DaemonSetStatusViewer.Status obj rev).err ≠
          some (.deadlineExceeded n)) ∧
    (∀ (obj : Option StatefulSet) (rev : Int) (n : String),
        (StatefulSetStatusViewer.Status obj rev).err ≠
          some (.deadlineExceeded n)) ∧
    (∀ (obj : Option CloneSet) (rev : Int) (n : String),
        (CloneSetStatusViewer.Status obj rev).err ≠
          some (.deadlineExceeded n)) ∧
    (∀ (obj : Option AdvancedStatefulSet) (rev : Int) (r : ProgressResult)
        (n : String),
        AdvancedStatefulSetStatusViewer.Status obj rev = some r →
        r.err ≠ some (.deadlineExceeded n)) := by
  refine ⟨?_, ?_, ?_, ?_, ?_⟩
  · rintro d rev h0 hgen ⟨c, hc, hreason⟩
    have hn : ¬ rev > 0 := by omega
    simp [DeploymentStatusViewer.Status, hn, deploymentObserved, hgen,
      deploymentConditionCheck, hc, hreason]
  · rintro (_ | ds) rev n
    · simp [DaemonSetStatusViewer.Status]
    · simp only [DaemonSetStatusViewer.Status]
      split
      · simp
      · split
        · split
          · simp
          · split <;> simp
        · simp
  · rintro (_ | sts) rev n
    · simp [StatefulSetStatusViewer.Status]
    · simp only [StatefulSetStatusViewer.Status]
      split
      · simp
      · split
        · simp
        · rw [stsReadyCheck_err sts]
          simp
  · rintro (_ | cs) rev n
    · simp [CloneSetStatusViewer.Status]
    · rw [cloneSetStatus_some_err cs rev]
      simp
  · rintro (_ | asts) rev r n
    · intro h
      simp only [AdvancedStatefulSetStatusViewer.Status] at h
      injection h with h
      subst h
      simp
    · intro h
      rw [astsStatus_some_err asts rev r h]
      simp

/-- Claim C6 witness: the amended Deployment statement applied to a second
concrete deadline-exceeded Deployment. -/
theorem claim_C6_witness :
    DeploymentStatusViewer.Status (some dDeadline2) 0 =
      ⟨"", false, some (.deadlineExceeded "slower")⟩ :=
  claim_C6_thm.1 dDeadline2 0 (by decide) (by decide)
    ⟨⟨"Progressing", "ProgressDeadlineExceeded"⟩, rfl, rfl⟩

theorem insertPod_ne_nil (le : Pod → Pod → Bool) (p : Pod) (l : List Pod) :
    insertPod le p l ≠ [] := by
  cases l with
  | nil => simp [insertPod]
  | cons q rest =>
    simp only [insertPod]
    split <;> simp

theorem sortPods_eq_nil_iff (le : Pod → Pod → Bool) (l : List Pod) :
    sortPods le l = [] ↔ l = [] := by
  cases l with
  | nil => simp [sortPods]
  | cons p rest =>
    simp only [sortPods]
    constructor
    · intro h; exact absurd h (insertPod_ne_nil le p (sortPods le rest))
    · intro h; cases h

theorem untilWithoutRetry_some (events : List WatchEvent) (ev : WatchEvent) :
    events.find? isQualifying = some ev → untilWithoutRetry events = .ok ev := by
  induction events with
  | nil => intro h; simp at h
  | cons e rest ih =>
    intro h
    cases hq : isQualifying e with
    | true =>
      rw [List.find?_cons_of_pos _ hq] at h
      injection h with h
      subst h
      simp [untilWithoutRetry, hq]
    | false =>
      rw [List.find?_cons_of_neg _ (by simp [hq])] at h
      simp [untilWithoutRetry, hq, ih h]

theorem untilWithoutRetry_none (events : List WatchEvent) :
    events.find? isQualifying = none →
    untilWithoutRetry events = .error .waitTimeout := by
  induction events with
  | nil => intro _; rfl
  | cons e rest ih =>
    intro h
    cases hq : isQualifying e with
    | true =>
      rw [List.find?_cons_of_pos _ hq] at h
      cases h
    | false =>
      rw [List.find?_cons_of_neg _ (by simp [hq])] at h
      simp [untilWithoutRetry, hq, ih h]

/-- Claim C7: when the initial list is non-empty, GetFirstPod immediately
returns the top pod of the caller-supplied ordering together with the full
listed match count, without consulting the watch; when it is empty, the
result is determined by the watch stream opened at the list's resource
version — the first Added/Modified event's pod with count 1, a not-a-pod
error for a qualifying non-pod event, and the timeout error when no
qualifying event arrives. -/
theorem claim_C7_thm (le : Pod → Pod → Bool) (podList : PodList)
    (watch : String → List WatchEvent) :
    (∀ p rest, sortPods le podList.items = p :: rest →
      GetFirstPod le podList watch = .ok (p, podList.items.length) ∧
      ∀ watch2 : String → List WatchEvent,
        GetFirstPod le podList watch2 = GetFirstPod le podList watch) ∧
    (podList.items ≠ [] → sortPods le podList.items ≠ []) ∧
    (podList.items = [] →
      (∀ ev p, (watch podList.resourceVersion).find? isQualifying = some ev →
        ev.object = .pod p → GetFirstPod le podList watch = .ok (p, 1)) ∧
      (∀ ev, (watch podList.resourceVersion).find? isQualifying = some ev →
        ev.object = .other →
        GetFirstPod le podList watch = .error .notPodEvent) ∧
      ((watch podList.resourceVersion).find? isQualifying = none →
        GetFirstPod le podList watch = .error .waitTimeout)) := by
  refine ⟨?_, ?_, ?_⟩
  · intro p rest h
    constructor
    · simp [GetFirstPod, h]
    · intro watch2
      simp [GetFirstPod, h]
  · intro h
    simp [sortPods_eq_nil_iff, h]
  · intro he
    have hs : sortPods le podList.items = [] := by
      rw [he]; rfl
    refine ⟨?_, ?_, ?_⟩
    · intro ev p hfind hobj
      simp [GetFirstPod, hs, untilWithoutRetry_some _ _ hfind, hobj]
    · intro ev hfind hobj
      simp [GetFirstPod, hs, untilWithoutRetry_some _ _ hfind, hobj]
    · intro hfind
      simp [GetFirstPod, hs, untilWithoutRetry_none _ hfind]

/-- Claim C7 witness: concrete instances of all three behaviours — immediate
return of the most recently created pod with match count 2, the watched-pod
return with match count 1, and the timeout error. -/
theorem claim_C7_witness :
    GetFirstPod byCreationDesc podListTwo watchStream = .ok (podNew, 2) ∧
    GetFirstPod byCreationDesc podListEmpty watchStream = .ok (podWatched, 1) ∧
    GetFirstPod byCreationDesc podListEmpty watchStreamEmpty =
      .error .waitTimeout :=
  ⟨((claim_C7_thm byCreationDesc podListTwo watchStream).1 podNew [podOld]
      (by decide)).1,
   ((claim_C7_thm byCreationDesc podListEmpty watchStream).2.2 rfl).1
      ⟨.added, .pod podWatched⟩ podWatched (by decide) rfl,
   ((claim_C7_thm byCreationDesc podListEmpty watchStreamEmpty).2.2 rfl).2.2
      (by decide)⟩

theorem findEnv_name (env : List EnvVar) (n : String) (v : EnvVar) :
    findEnv env n = some v → v.name = n := by
  induction env with
  | nil => intro h; cases h
  | cons e rest ih =>
    intro h
    simp only [findEnv] at h
    split at h
    · injection h with h
      subst h
      assumption
    · exact ih h

theorem findEnv_isSome (env : List EnvVar) (e : EnvVar) (he : e ∈ env) :
    ∃ v, findEnv env e.name = some v := by
  induction env with
  | nil => cases he
  | cons a rest ih =>
    by_cases hc : a.name = e.name
    · exact ⟨a, by simp [findEnv, hc]⟩
    · rcases List.mem_cons.mp he with rfl | he2
      · exact absurd rfl hc
      · rcases ih he2 with ⟨v, hv⟩
        exact ⟨v, by simp [findEnv, hc, hv]⟩

theorem updateEnvReplace_cons_mem (env : List EnvVar) (c : List String)
    (e : EnvVar) (rest : List EnvVar) (h : e.name ∈ c) :
    updateEnvReplace env c (e :: rest) = updateEnvReplace env c rest := by
  simp [updateEnvReplace, h]

theorem updateEnvReplace_cons_found (env : List EnvVar) (c : List String)
    (e newer : EnvVar) (rest : List EnvVar) (h : e.name ∉ c)
    (hf : findEnv env e.name = some newer) :
    updateEnvReplace env c (e :: rest) =
      ((updateEnvReplace env (e.name :: c) rest).1,
        newer :: (updateEnvReplace env (e.name :: c) rest).2) := by
  simp [updateEnvReplace, h, hf]

theorem updateEnvReplace_cons_notfound (env : List EnvVar) (c : List String)
    (e : EnvVar) (rest : List EnvVar) (h : e.name ∉ c)
    (hf : findEnv env e.name = none) :
    updateEnvReplace env c (e :: rest) =
      ((updateEnvReplace env c rest).1, e :: (updateEnvReplace env c rest).2) := by
  simp [updateEnvReplace, h, hf]

theorem updateEnvAppend_cons_mem (c : List String) (e : EnvVar)
    (rest : List EnvVar) (h : e.name ∈ c) :
    updateEnvAppend c (e :: rest) = updateEnvAppend c rest := by
  simp [updateEnvAppend, h]

theorem updateEnvAppend_cons_notmem (c : List String) (e : EnvVar)
    (rest : List EnvVar) (h : e.name ∉ c) :
    updateEnvAppend c (e :: rest) = e :: updateEnvAppend (e.name :: c) rest := by
  simp [updateEnvAppend, h]

theorem updateEnvReplace_mono (env : List EnvVar) (l : List EnvVar) :
    ∀ (c : List String) (n : String),
      n ∈ c → n ∈ (updateEnvReplace env c l).1 := by
  induction l with
  | nil => intro c n h; simpa [updateEnvReplace] using h
  | cons e rest ih =>
    intro c n h
    by_cases hm : e.name ∈ c
    · rw [updateEnvReplace_cons_mem env c e rest hm]
      exact ih c n h
    · cases hf : findEnv env e.name with
      | some newer =>
        rw [updateEnvReplace_cons_found env c e newer rest hm hf]
        exact ih (e.name :: c) n (List.mem_cons_of_mem _ h)
      | none =>
        rw [updateEnvReplace_cons_notfound env c e rest hm hf]
        exact ih c n h

theorem updateEnvReplace_out_notMem (env : List EnvVar) (l : List EnvVar) :
    ∀ (c : List String) (x : EnvVar),
      x ∈ (updateEnvReplace env c l).2 → x.name ∉ c := by
  induction l with
  | nil => intro c x h; simp [updateEnvReplace] at h
  | cons e rest ih =>
    intro c x h
    by_cases hm : e.name ∈ c
    · rw [updateEnvReplace_cons_mem env c e rest hm] at h
      exact ih c x h
    · cases hf : findEnv env e.name with
      | some newer =>
        rw [updateEnvReplace_cons_found env c e newer rest hm hf] at h
        rcases List.mem_cons.mp h with rfl | h2
        · rw [findEnv_name env e.name x hf]
          exact hm
        · intro hc
          exact ih (e.name :: c) x h2 (List.mem_cons_of_mem _ hc)
      | none =>
        rw [updateEnvReplace_cons_notfound env c e rest hm hf] at h
        rcases List.mem_cons.mp h with rfl | h2
        · exact hm
        · exact ih c x h2

theorem updateEnvReplace_out_find (env : List EnvVar) (l : List EnvVar) :
    ∀ (c : List String) (x : EnvVar),
      x ∈ (updateEnvReplace env c l).2 →
      findEnv env x.name = some x ∨ findEnv env x.name = none := by
  induction l with
  | nil => intro c x h; simp [updateEnvReplace] at h
  | cons e rest ih =>
    intro c x h
    by_cases hm : e.name ∈ c
    · rw [updateEnvReplace_cons_mem env c e rest hm] at h
      exact ih c x h
    · cases hf : findEnv env e.name with
      | some newer =>
        rw [updateEnvReplace_cons_found env c e newer rest hm hf] at h
        rcases List.mem_cons.mp h with rfl | h2
        · left
          rw [findEnv_name env e.name x hf]
          exact hf
        · exact ih (e.name :: c) x h2
      | none =>
        rw [updateEnvReplace_cons_notfound env c e rest hm hf] at h
        rcases List.mem_cons.mp h with rfl | h2
        · right; exact hf
        · exact ih c x h2

theorem updateEnvReplace_fst_sub (env : List EnvVar) (l : List EnvVar) :
    ∀ (c : List String) (n : String),
      n ∈ (updateEnvReplace env c l).1 →
      n ∈ c ∨ ∃ x ∈ (updateEnvReplace env c l).2, x.name = n := by
  induction l with
  | nil => intro c n h; exact Or.inl (by simpa [updateEnvReplace] using h)
  | cons e rest ih =>
    intro c n h
    by_cases hm : e.name ∈ c
    · rw [updateEnvReplace_cons_mem env c e rest hm] at h ⊢
      exact ih c n h
    · cases hf : findEnv env e.name with
      | some newer =>
        rw [updateEnvReplace_cons_found env c e newer rest hm hf] at h ⊢
        rcases ih (e.name :: c) n h with h2 | ⟨x, hx, hxn⟩
        · rcases List.mem_cons.mp h2 with heq | h3
          · right
            exact ⟨newer, List.mem_cons_self _ _,
              (findEnv_name env e.name newer hf).trans heq.symm⟩
          · exact Or.inl h3
        · right
          exact ⟨x, List.mem_cons_of_mem _ hx, hxn⟩
      | none =>
        rw [updateEnvReplace_cons_notfound env c e rest hm hf] at h ⊢
        rcases ih c n h with h2 | ⟨x, hx, hxn⟩
        · exact Or.inl h2
        · right
          exact ⟨x, List.mem_cons_of_mem _ hx, hxn⟩

theorem updateEnvReplace_covers (env : List EnvVar) (l : List EnvVar) :
    ∀ (c : List String) (x : EnvVar) (v : EnvVar),
      x ∈ (updateEnvReplace env c l).2 → findEnv env x.name = some v →
      x.name ∈ (updateEnvReplace env c l).1 := by
  induction l with
  | nil => intro c x v h; simp [updateEnvReplace] at h
  | cons e rest ih =>
    intro c x v h hfx
    by_cases hm : e.name ∈ c
    · rw [updateEnvReplace_cons_mem env c e rest hm] at h ⊢
      exact ih c x v h hfx
    · cases hf : findEnv env e.name with
      | some newer =>
        rw [updateEnvReplace_cons_found env c e newer rest hm hf] at h ⊢
        rcases List.mem_cons.mp h with rfl | h2
        · rw [findEnv_name env e.name x hf]
          exact updateEnvReplace_mono env rest (e.name :: c) e.name
            (List.mem_cons_self _ _)
        · exact ih (e.name :: c) x v h2 hfx
      | none =>
        rw [updateEnvReplace_cons_notfound env c e rest hm hf] at h ⊢
        rcases List.mem_cons.mp h with rfl | h2
        · rw [hfx] at hf
          cases hf
        · exact ih c x v h2 hfx

theorem updateEnvReplace_pairwise (env : List EnvVar) (l : List EnvVar) :
    ∀ (c : List String),
      List.Pairwise (fun a b => a.name = b.name → findEnv env a.name = none)
        (updateEnvReplace env c l).2 := by
  induction l with
  | nil => intro c; simp [updateEnvReplace]
  | cons e rest ih =>
    intro c
    by_cases hm : e.name ∈ c
    · rw [updateEnvReplace_cons_mem env c e rest hm]
      exact ih c
    · cases hf : findEnv env e.name with
      | some newer =>
        rw [updateEnvReplace_cons_found env c e newer rest hm hf]
        refine List.pairwise_cons.mpr ⟨?_, ih (e.name :: c)⟩
        intro b hb hnb
        have hbn : b.name ∉ e.name :: c :=
          updateEnvReplace_out_notMem env rest (e.name :: c) b hb
        rw [findEnv_name env e.name newer hf] at hnb
        exact absurd (by rw [hnb]; exact List.mem_cons_self _ _) hbn
      | none =>
        rw [updateEnvReplace_cons_notfound env c e rest hm hf]
        refine List.pairwise_cons.mpr ⟨?_, ih c⟩
        intro b hb hnb
        exact hf

theorem updateEnvAppend_mem (l : List EnvVar) :
    ∀ (c : List String) (x : EnvVar),
      x ∈ updateEnvAppend c l → findEnv l x.name = some x ∧ x.name ∉ c := by
  induction l with
  | nil => intro c x h; cases h
  | cons e rest ih =>
    intro c x h
    by_cases hm : e.name ∈ c
    · rw [updateEnvAppend_cons_mem c e rest hm] at h
      rcases ih c x h with ⟨hf, hnc⟩
      have hne : e.name ≠ x.name := fun heq => hnc (heq ▸ hm)
      exact ⟨by simp [findEnv, hne, hf], hnc⟩
    · rw [updateEnvAppend_cons_notmem c e rest hm] at h
      rcases List.mem_cons.mp h with rfl | h2
      · exact ⟨by simp [findEnv], hm⟩
      · rcases ih (e.name :: c) x h2 with ⟨hf, hnc⟩
        have hne : e.name ≠ x.name :=
          fun heq => hnc (heq ▸ List.mem_cons_self _ _)
        exact ⟨by simp [findEnv, hne, hf], fun hc => hnc (List.mem_cons_of_mem _ hc)⟩

theorem updateEnvAppend_pairwise (l : List EnvVar) :
    ∀ c : List String,
      List.Pairwise (fun a b => a.name ≠ b.name) (updateEnvAppend c l) := by
  induction l with
  | nil => intro c; simp [updateEnvAppend]
  | cons e rest ih =>
    intro c
    by_cases hm : e.name ∈ c
    · rw [updateEnvAppend_cons_mem c e rest hm]
      exact ih c
    · rw [updateEnvAppend_cons_notmem c e rest hm]
      refine List.pairwise_cons.mpr ⟨?_, ih (e.name :: c)⟩
      intro b hb
      exact fun heq =>
        (updateEnvAppend_mem rest (e.name :: c) b hb).2
          (heq ▸ List.mem_cons_self _ _)

theorem updateEnvAppend_nil (l : List EnvVar) (c : List String)
    (h : ∀ e ∈ l, e.name ∈ c) : updateEnvAppend c l = [] := by
  induction l with
  | nil => rfl
  | cons e rest ih =>
    rw [updateEnvAppend_cons_mem c e rest (h e (List.mem_cons_self _ _))]
    exact ih (fun x hx => h x (List.mem_cons_of_mem _ hx))

theorem updateEnvAppend_complete (l : List EnvVar) :
    ∀ (c : List String) (e : EnvVar), e ∈ l →
      e.name ∈ c ∨ ∃ x ∈ updateEnvAppend c l, x.name = e.name := by
  induction l with
  | nil => intro c e h; cases h
  | cons a rest ih =>
    intro c e he
    by_cases hm : a.name ∈ c
    · rw [updateEnvAppend_cons_mem c a rest hm]
      rcases List.mem_cons.mp he with rfl | he2
      · exact Or.inl hm
      · exact ih c e he2
    · rw [updateEnvAppend_cons_notmem c a rest hm]
      rcases List.mem_cons.mp he with heq | he2
      · exact Or.inr ⟨a, List.mem_cons_self _ _, (congrArg EnvVar.name heq).symm⟩
      · rcases ih (a.name :: c) e he2 with h2 | ⟨x, hx, hxn⟩
        · rcases List.mem_cons.mp h2 with heq | h3
          · exact Or.inr ⟨a, List.mem_cons_self _ _, heq.symm⟩
          · exact Or.inl h3
        · exact Or.inr ⟨x, List.mem_cons_of_mem _ hx, hxn⟩

theorem updateEnvAppend_congr (l : List EnvVar) :
    ∀ c c2 : List String,
      (∀ e ∈ l, (e.name ∈ c ↔ e.name ∈ c2)) →
      updateEnvAppend c l = updateEnvAppend c2 l := by
  induction l with
  | nil => intro c c2 _; rfl
  | cons e rest ih =>
    intro c c2 hiff
    by_cases hm : e.name ∈ c
    · have hm2 : e.name ∈ c2 := (hiff e (List.mem_cons_self _ _)).mp hm
      rw [updateEnvAppend_cons_mem c e rest hm,
        updateEnvAppend_cons_mem c2 e rest hm2]
      exact ih c c2 (fun x hx => hiff x (List.mem_cons_of_mem _ hx))
    · have hm2 : e.name ∉ c2 := fun h => hm ((hiff e (List.mem_cons_self _ _)).mpr h)
      rw [updateEnvAppend_cons_notmem c e rest hm,
        updateEnvAppend_cons_notmem c2 e rest hm2]
      refine congrArg _ (ih (e.name :: c) (e.name :: c2) ?_)
      intro x hx
      simp only [List.mem_cons]
      rw [hiff x (List.mem_cons_of_mem _ hx)]

theorem updateEnvReplace_stable (env : List EnvVar) (l : List EnvVar) :
    ∀ c : List String,
      (∀ x ∈ l, x.name ∉ c) →
      (∀ x ∈ l, ∀ v, findEnv env x.name = some v → v = x) →
      List.Pairwise (fun a b => a.name = b.name → findEnv env a.name = none) l →
      (updateEnvReplace env c l).2 = l := by
  induction l with
  | nil => intro c _ _ _; rfl
  | cons e rest ih =>
    intro c h1 h2 hpw
    have hm : e.name ∉ c := h1 e (List.mem_cons_self _ _)
    rcases List.pairwise_cons.mp hpw with ⟨hhd, htl⟩
    cases hf : findEnv env e.name with
    | some v =>
      have hv : v = e := h2 e (List.mem_cons_self _ _) v hf
      rw [updateEnvReplace_cons_found env c e v rest hm hf, hv]
      refine congrArg _ (ih (e.name :: c) ?_ ?_ htl)
      · intro x hx
        simp only [List.mem_cons]
        rintro (heq | hc)
        · have hnone := hhd x hx heq.symm
          rw [hnone] at hf
          cases hf
        · exact h1 x (List.mem_cons_of_mem _ hx) hc
      · exact fun x hx => h2 x (List.mem_cons_of_mem _ hx)
    | none =>
      rw [updateEnvReplace_cons_notfound env c e rest hm hf]
      refine congrArg _ (ih c ?_ ?_ htl)
      · exact fun x hx => h1 x (List.mem_cons_of_mem _ hx)
      · exact fun x hx => h2 x (List.mem_cons_of_mem _ hx)

theorem updateEnv_idem (ex env : List EnvVar) (rm : List String) :
    updateEnv (updateEnv ex env rm) env rm = updateEnv ex env rm := by
  have hmemo : ∀ x ∈ updateEnv ex env rm, x.name ∉ rm := by
    intro x hx
    have hx2 : x ∈ (updateEnvReplace env rm ex).2 ++
        updateEnvAppend (updateEnvReplace env rm ex).1 env := hx
    rcases List.mem_append.mp hx2 with h | h
    · exact updateEnvReplace_out_notMem env ex rm x h
    · exact fun hc =>
        (updateEnvAppend_mem env (updateEnvReplace env rm ex).1 x h).2
          (updateEnvReplace_mono env ex rm x.name hc)
  have hfind : ∀ x ∈ updateEnv ex env rm, ∀ v, findEnv env x.name = some v → v = x := by
    intro x hx v hv
    have hx2 : x ∈ (updateEnvReplace env rm ex).2 ++
        updateEnvAppend (updateEnvReplace env rm ex).1 env := hx
    rcases List.mem_append.mp hx2 with h | h
    · rcases updateEnvReplace_out_find env ex rm x h with h2 | h2
      · rw [hv] at h2
        injection h2
      · rw [hv] at h2
        cases h2
    · have h2 := (updateEnvAppend_mem env (updateEnvReplace env rm ex).1 x h).1
      rw [hv] at h2
      injection h2
  have hpw : List.Pairwise (fun a b => a.name = b.name → findEnv env a.name = none)
      (updateEnv ex env rm) := by
    have : List.Pairwise (fun a b => a.name = b.name → findEnv env a.name = none)
        ((updateEnvReplace env rm ex).2 ++
          updateEnvAppend (updateEnvReplace env rm ex).1 env) := by
      refine List.pairwise_append.mpr
        ⟨updateEnvReplace_pairwise env ex rm, ?_, ?_⟩
      · exact (updateEnvAppend_pairwise env (updateEnvReplace env rm ex).1).imp
          (fun hne heq => absurd heq hne)
      · intro x hx y hy heq
        rcases updateEnvAppend_mem env (updateEnvReplace env rm ex).1 y hy with
          ⟨hfy, hyc⟩
        have hfx : findEnv env x.name = some y := by rw [heq]; exact hfy
        have hxc := updateEnvReplace_covers env ex rm x y hx hfx
        rw [heq] at hxc
        exact absurd hxc hyc
    exact this
  have hsnd : (updateEnvReplace env rm (updateEnv ex env rm)).2 = updateEnv ex env rm :=
    updateEnvReplace_stable env (updateEnv ex env rm) rm hmemo hfind hpw
  have hcov : ∀ e ∈ env, e.name ∈ (updateEnvReplace env rm (updateEnv ex env rm)).1 := by
    intro e he
    rcases findEnv_isSome env e he with ⟨v, hv⟩
    by_cases hrm : e.name ∈ rm
    · exact updateEnvReplace_mono env (updateEnv ex env rm) rm e.name hrm
    · have hex : ∃ x ∈ updateEnv ex env rm, x.name = e.name := by
        rcases updateEnvAppend_complete env (updateEnvReplace env rm ex).1 e he with
          h | ⟨x, hx, hxn⟩
        · rcases updateEnvReplace_fst_sub env ex rm e.name h with h2 | ⟨x, hx, hxn⟩
          · exact absurd h2 hrm
          · refine ⟨x, ?_, hxn⟩
            show x ∈ (updateEnvReplace env rm ex).2 ++
              updateEnvAppend (updateEnvReplace env rm ex).1 env
            exact List.mem_append.mpr (Or.inl hx)
        · refine ⟨x, ?_, hxn⟩
          show x ∈ (updateEnvReplace env rm ex).2 ++
            updateEnvAppend (updateEnvReplace env rm ex).1 env
          exact List.mem_append.mpr (Or.inr hx)
      rcases hex with ⟨x, hx, hxn⟩
      have hx2 : x ∈ (updateEnvReplace env rm (updateEnv ex env rm)).2 := by
        rw [hsnd]; exact hx
      have hfx : findEnv env x.name = some v := by rw [hxn]; exact hv
      have := updateEnvReplace_covers env (updateEnv ex env rm) rm x v hx2 hfx
      rw [hxn] at this
      exact this
  have happ : updateEnvAppend (updateEnvReplace env rm (updateEnv ex env rm)).1 env = [] :=
    updateEnvAppend_nil env (updateEnvReplace env rm (updateEnv ex env rm)).1 hcov
  show (updateEnvReplace env rm (updateEnv ex env rm)).2 ++
    updateEnvAppend (updateEnvReplace env rm (updateEnv ex env rm)).1 env =
    updateEnv ex env rm
  rw [hsnd, happ, List.append_nil]

theorem updateEnvReplace_nodup_snd (env : List EnvVar) (l : List EnvVar) :
    ∀ c : List String,
      (∀ x ∈ l, x.name ∉ c) → (l.map EnvVar.name).Nodup →
      (updateEnvReplace env c l).2 =
        l.map (fun e => (findEnv env e.name).getD e) := by
  induction l with
  | nil => intro c _ _; rfl
  | cons e rest ih =>
    intro c h1 hnd
    have hm : e.name ∉ c := h1 e (List.mem_cons_self _ _)
    have hnd2 : (∀ x ∈ rest, ¬ x.name = e.name) ∧
        (rest.map EnvVar.name).Nodup := by simpa using hnd
    rcases hnd2 with ⟨hhd, htl⟩
    cases hf : findEnv env e.name with
    | some v =>
      rw [updateEnvReplace_cons_found env c e v rest hm hf]
      simp only [List.map_cons, hf, Option.getD_some]
      refine congrArg _ (ih (e.name :: c) ?_ htl)
      intro x hx
      simp only [List.mem_cons]
      rintro (heq | hc)
      · exact hhd x hx heq
      · exact h1 x (List.mem_cons_of_mem _ hx) hc
    | none =>
      rw [updateEnvReplace_cons_notfound env c e rest hm hf]
      simp only [List.map_cons, hf, Option.getD_none]
      exact congrArg _ (ih c (fun x hx => h1 x (List.mem_cons_of_mem _ hx)) htl)

theorem updateEnvReplace_nodup_fst (env : List EnvVar) (l : List EnvVar) :
    ∀ c : List String,
      (∀ x ∈ l, x.name ∉ c) → (l.map EnvVar.name).Nodup →
      (updateEnvReplace env c l).1 =
        ((l.filter (fun e => (findEnv env e.name).isSome)).map EnvVar.name).reverse
          ++ c := by
  induction l with
  | nil => intro c _ _; rfl
  | cons e rest ih =>
    intro c h1 hnd
    have hm : e.name ∉ c := h1 e (List.mem_cons_self _ _)
    have hnd2 : (∀ x ∈ rest, ¬ x.name = e.name) ∧
        (rest.map EnvVar.name).Nodup := by simpa using hnd
    rcases hnd2 with ⟨hhd, htl⟩
    cases hf : findEnv env e.name with
    | some v =>
      rw [updateEnvReplace_cons_found env c e v rest hm hf]
      have hrest : (updateEnvReplace env (e.name :: c) rest).1 =
          ((rest.filter (fun x => (findEnv env x.name).isSome)).map
            EnvVar.name).reverse ++ (e.name :: c) := by
        refine ih (e.name :: c) ?_ htl
        intro x hx
        simp only [List.mem_cons]
        rintro (heq | hc)
        · exact hhd x hx heq
        · exact h1 x (List.mem_cons_of_mem _ hx) hc
      rw [hrest]
      rw [List.filter_cons_of_pos (by simp [hf])]
      simp [List.append_assoc]
    | none =>
      rw [updateEnvReplace_cons_notfound env c e rest hm hf]
      rw [List.filter_cons_of_neg (by simp [hf])]
      exact ih c (fun x hx => h1 x (List.mem_cons_of_mem _ hx)) htl

theorem updateEnv_inPlace (ex env : List EnvVar) (rm : List String)
    (hnd : (ex.map EnvVar.name).Nodup) (hdis : ∀ x ∈ ex, x.name ∉ rm) :
    updateEnv ex env rm =
      ex.map (fun e => (findEnv env e.name).getD e) ++
      updateEnvAppend (rm ++ ex.map EnvVar.name) env := by
  have h2 := updateEnvReplace_nodup_snd env ex rm hdis hnd
  have h1 := updateEnvReplace_nodup_fst env ex rm hdis hnd
  have hcg : updateEnvAppend (updateEnvReplace env rm ex).1 env =
      updateEnvAppend (rm ++ ex.map EnvVar.name) env := by
    refine updateEnvAppend_congr env (updateEnvReplace env rm ex).1
      (rm ++ ex.map EnvVar.name) ?_
    intro e he
    rcases findEnv_isSome env e he with ⟨v, hv⟩
    rw [h1]
    simp only [List.mem_append, List.mem_reverse, List.mem_map,
      List.mem_filter]
    constructor
    · rintro (⟨x, ⟨hx, _⟩, hxn⟩ | hrm)
      · exact Or.inr ⟨x, hx, hxn⟩
      · exact Or.inl hrm
    · rintro (hrm | ⟨x, hx, hxn⟩)
      · exact Or.inr hrm
      · refine Or.inl ⟨x, ⟨hx, ?_⟩, hxn⟩
        rw [hxn, hv]
        rfl
  show (updateEnvReplace env rm ex).2 ++
    updateEnvAppend (updateEnvReplace env rm ex).1 env =
    ex.map (fun e => (findEnv env e.name).getD e) ++
    updateEnvAppend (rm ++ ex.map EnvVar.name) env
  rw [h2, hcg]

/-- Claim C8: updateEnv is idempotent on every input; moreover, when the
existing names are distinct and disjoint from the removal set, the output is
exactly the existing list with same-named upserts substituted in place
followed by the remaining upsert entries appended in their given order. -/
theorem claim_C8_thm :
    (∀ (ex env : List EnvVar) (rm : List String),
      updateEnv (updateEnv ex env rm) env rm = updateEnv ex env rm) ∧
    (∀ (ex env : List EnvVar) (rm : List String),
      (ex.map EnvVar.name).Nodup → (∀ x ∈ ex, x.name ∉ rm) →
      updateEnv ex env rm =
        ex.map (fun e => (findEnv env e.name).getD e) ++
        updateEnvAppend (rm ++ ex.map EnvVar.name) env) :=
  ⟨updateEnv_idem, updateEnv_inPlace⟩

/-- Claim C8 witness: both parts applied to a concrete environment list, a
concrete upsert list and a concrete removal set. -/
theorem claim_C8_witness :
    updateEnv (updateEnv exEnvVars addEnvVars rmEnvNames) addEnvVars rmEnvNames =
      updateEnv exEnvVars addEnvVars rmEnvNames ∧
    updateEnv exEnvVars addEnvVars ["Z"] =
      exEnvVars.map (fun e => (findEnv addEnvVars e.name).getD e) ++
      updateEnvAppend (["Z"] ++ exEnvVars.map EnvVar.name) addEnvVars :=
  ⟨claim_C8_thm.1 exEnvVars addEnvVars rmEnvNames,
   claim_C8_thm.2 exEnvVars addEnvVars ["Z"] (by decide) (by decide)⟩

/-- Claim C9: removal wins over upsert — a name in the removal set never
appears in updateEnv's output, even when the upsert list also carries it. -/
theorem claim_C9_thm (ex env : List EnvVar) (rm : List String) (n : String)
    (hn : n ∈ rm) :
    ∀ x ∈ updateEnv ex env rm, x.name ≠ n := by
  intro x hx heq
  have hx2 : x ∈ (updateEnvReplace env rm ex).2 ++
      updateEnvAppend (updateEnvReplace env rm ex).1 env := hx
  rcases List.mem_append.mp hx2 with h | h
  · exact updateEnvReplace_out_notMem env ex rm x h (heq ▸ hn)
  · exact (updateEnvAppend_mem env (updateEnvReplace env rm ex).1 x h).2
      (updateEnvReplace_mono env ex rm x.name (heq ▸ hn))

/-- Claim C9 witness: with removal set containing "C" — also present among
the upserts — no output entry is named "C". -/
theorem claim_C9_witness :
    "C" ∈ ["C"] ∧
    (∀ x ∈ updateEnv exEnvVars (addEnvVars ++ [⟨"C", "7"⟩]) ["C"], x.name ≠ "C") :=
  ⟨by decide, claim_C9_thm exEnvVars (addEnvVars ++ [⟨"C", "7"⟩]) ["C"] "C" (by decide)⟩

/-- Claim C10: UpdateResourceEnv modifies only CloneSet and kruise v1beta1
(Advanced) StatefulSet objects; on those it changes only each template
container's env list — upserting the RESTARTED_AT marker variable — leaving
container identity and every other field intact, and it leaves objects of
every other type entirely unchanged. -/
theorem claim_C10_thm :
    (∀ (now : String) (obj : K8sObject),
      (∀ cs, obj ≠ .cloneSet cs) → (∀ a, obj ≠ .advancedStatefulSet a) →
      UpdateResourceEnv now obj = obj) ∧
    (∀ (now : String) (cs : CloneSet),
      ∃ cs2, UpdateResourceEnv now (.cloneSet cs) = .cloneSet cs2 ∧
        cs2.name = cs.name ∧ cs2.generation = cs.generation ∧
        cs2.replicas = cs.replicas ∧ cs2.updateStrategy = cs.updateStrategy ∧
        cs2.status = cs.status ∧
        cs2.template.spec.containers =
          cs.template.spec.containers.map (fun c =>
            { c with env := updateEnv c.env [⟨RestartedEnv, now⟩] [] })) ∧
    (∀ (now : String) (asts : AdvancedStatefulSet),
      ∃ a2, UpdateResourceEnv now (.advancedStatefulSet asts) =
          .advancedStatefulSet a2 ∧
        a2.name = asts.name ∧ a2.generation = asts.generation ∧
        a2.replicas = asts.replicas ∧ a2.updateStrategy = asts.updateStrategy ∧
        a2.status = asts.status ∧
        a2.template.spec.containers =
          asts.template.spec.containers.map (fun c =>
            { c with env := updateEnv c.env [⟨RestartedEnv, now⟩] [] })) := by
  refine ⟨?_, ?_, ?_⟩
  · intro now obj hcs ha
    cases obj with
    | cloneSet cs => exact absurd rfl (hcs cs)
    | advancedStatefulSet a => exact absurd rfl (ha a)
    | statefulSet sts => rfl
    | daemonSet ds => rfl
    | deployment d => rfl
    | otherObject t => rfl
  · intro now cs
    exact ⟨_, rfl, rfl, rfl, rfl, rfl, rfl, rfl⟩
  · intro now asts
    exact ⟨_, rfl, rfl, rfl, rfl, rfl, rfl, rfl⟩

/-- Claim C10 witness: a plain StatefulSet object passes through
UpdateResourceEnv unchanged. -/
theorem claim_C10_witness :
    UpdateResourceEnv "2021-06-01T00:00:00Z" (.statefulSet stsOnDelete) =
      .statefulSet stsOnDelete :=
  claim_C10_thm.1 "2021-06-01T00:00:00Z" (.statefulSet stsOnDelete)
    (fun _ h => K8sObject.noConfusion h) (fun _ h => K8sObject.noConfusion h)
